import Mathlib

/-!
Verification of the molt_crawler repository: a shallow embedding of the
crawler (crawler.py), the quality scorer (quality.py) and the dedup pass
(dedupe.py), together with theorems settling the specification claims.

External library behaviour (BeautifulSoup parsing, urljoin) is
parameterised as oracle inputs; Python stdlib string/URL primitives are
embedded directly. Strings are Lean `String`, Python ints are `Int`/`Nat`.
-/

/-- ASCII lowercasing of a string, embedding Python str.lower() on the
ASCII range (Char.toLower lowers exactly the range A-Z). -/
def lowerStr (s : String) : String :=
  String.mk (s.toList.map Char.toLower)

/-- Boolean list-prefix test used to embed Python startswith on char lists. -/
def isPrefixB : List Char → List Char → Bool
  | [], _ => true
  | _ :: _, [] => false
  | p :: ps, c :: cs => p = c && isPrefixB ps cs

/-- Boolean substring (contiguous) test on char lists, embedding the Python
operator checking that the first list occurs inside the second. -/
def isInfixB : List Char → List Char → Bool
  | p, [] => isPrefixB p []
  | p, c :: cs => isPrefixB p (c :: cs) || isInfixB p cs

/-- Embeds the Python substring test "p in s". -/
def containsSub (s p : String) : Bool :=
  isInfixB p.toList s.toList

/-- Boolean list-suffix test used to embed Python endswith. -/
def isSuffixB (p l : List Char) : Bool :=
  isPrefixB p.reverse l.reverse

/-- Left-to-right non-overlapping replacement on char lists; the fuel is
the input length (at least one char is consumed per step). Embeds Python
str.replace for a non-empty pattern. -/
def pyReplaceAux (pat rep : List Char) : Nat → List Char → List Char
  | 0, l => l
  | fuel + 1, l =>
    match l with
    | [] => []
    | c :: cs =>
      if pat ≠ [] ∧ isPrefixB pat l = true then
        rep ++ pyReplaceAux pat rep fuel (l.drop pat.length)
      else c :: pyReplaceAux pat rep fuel cs

/-- Embeds Python s.replace(pat, rep) (all occurrences, left to right,
non-overlapping). -/
def pyReplace (s pat rep : String) : String :=
  String.mk (pyReplaceAux pat.toList rep.toList s.toList.length s.toList)

/-- Left-to-right split on a non-empty separator; fuel as in pyReplaceAux.
Embeds Python str.split(sep). -/
def pySplitAux (sep : List Char) : Nat → List Char → List Char → List (List Char)
  | 0, acc, l => [acc.reverse ++ l]
  | fuel + 1, acc, l =>
    match l with
    | [] => [acc.reverse]
    | c :: cs =>
      if sep ≠ [] ∧ isPrefixB sep l = true then
        acc.reverse :: pySplitAux sep fuel [] (l.drop sep.length)
      else pySplitAux sep fuel (c :: acc) cs

/-- Embeds Python s.split(sep) for a non-empty separator. -/
def pySplitOn (s sep : String) : List String :=
  (pySplitAux sep.toList s.toList.length [] s.toList).map String.mk

/-- Whitespace-run word splitting, embedding Python str.split() with no
argument (leading/trailing/repeated whitespace yields no empty words). -/
def wordsAux : List Char → List Char → List (List Char)
  | [], acc => if acc = [] then [] else [acc.reverse]
  | c :: cs, acc =>
    if c.isWhitespace then
      if acc = [] then wordsAux cs [] else acc.reverse :: wordsAux cs []
    else wordsAux cs (c :: acc)

/-- Number of words of a string, embedding len of Python str.split(). -/
def word_count (t : String) : Nat :=
  (wordsAux t.toList []).length

/-- Embeds Python str.strip(): drop leading and trailing whitespace. -/
def pyStrip (s : String) : String :=
  String.mk (((s.toList.dropWhile Char.isWhitespace).reverse.dropWhile
    Char.isWhitespace).reverse)

/-- Joins string pieces with a separator, embedding Python sep.join. -/
def joinSep (sep : String) : List String → String
  | [] => ""
  | [x] => x
  | x :: xs => x ++ sep ++ joinSep sep xs

/-! ## quality.py: keyword and pattern tables -/

/-- RELEVANCE_KEYWORDS from quality.py, in dict insertion order. -/
def RELEVANCE_KEYWORDS : List (String × Int) :=
  [("molt", 3), ("claw", 3), ("openclaw", 3), ("lobster", 3),
   ("moltbook", 3), ("crustacean", 3), ("moltverse", 3),
   ("agent", 2), ("ai agent", 2), ("autonomous", 2), ("agentic", 2),
   ("llm", 2), ("claude", 2),
   ("for agents", 2), ("for ai", 2), ("agent economy", 2),
   ("agent social", 2), ("agent marketplace", 2)]

/-- AUTO_DETECT_BAD from quality.py: categorized bad-site phrase table,
in dict insertion order. -/
def AUTO_DETECT_BAD : List (String × List String) :=
  [("parked_page",
    ["launching soon", "coming soon", "bald geht\x27s los",
     "we\x27re getting things ready", "under construction",
     "future home of", "parked domain", "domain for sale",
     "hostinger dns system", "godaddy", "this domain is for sale",
     "wix thunderbolt", "wix-hosted"]),
   ("for_humans",
    ["platform built for developers",
     "no-code automation platform", "workflow automation platform",
     "automate your workflows", "business automation platform",
     "chatbot builder", "build chatbots", "create chatbots",
     "conversational ai platform built for",
     "ai agent directory", "find the right ai agent",
     "discover ai agents", "browse ai agents",
     "curated directory of ai agents"]),
   ("wrong_industry",
    ["stone crab", "seafood restaurant", "waterfront restaurant",
     "mail-order crabs", "hard-shell crabs", "shipped nationwide",
     "real estate", "property listing", "agents who sell",
     "realtors", "home buying",
     "medicare", "insurance agent", "life insurance",
     "talent agencies", "actor resource", "recruiting",
     "electric fencing", "poultry supplies", "excavator",
     "clothing brand", "fashion retail",
     "travel agent training", "travel incentives", "travel professionals",
     "registered agent service", "registered agent for",
     "corporations, llcs", "annual report tracking",
     "claw machine arcade", "arcade entertainment", "claw arcade",
     "party packages", "arcade games",
     "limpieza", "cleaning services", "maintenance company",
     "window cleaning", "pool maintenance",
     "display technology", "display panels", "au optronics",
     "micro led", "automotive display"]),
   ("generic_platform",
    ["discord bots", "telegram bot builder", "whatsapp business",
     "chatbot directory", "open source chatbot",
     "prediction market", "polymarket",
     "genealogy", "family history", "surname research",
     "tech news aggregation", "curated content from",
     "development news", "jstack",
     "link management platform", "branded short links",
     "url shortener", "link shortening"]),
   ("malicious",
    ["scam", "phishing", "malware", "compromised",
     "åšå¤©å ‚", "ä½“è‚²å®˜ç½‘"])]

/-- RED_FLAGS from quality.py. -/
def RED_FLAGS : List String :=
  ["parked domain", "domain for sale", "coming soon",
   "under construction", "database vulnerability", "compromised",
   "scam", "phishing", "malware", "do not use",
   "hostinger dns system", "future home of"]

/-- First bad pattern of AUTO_DETECT_BAD matching the text, with its
category, embedding the nested loop of auto_detect_bad_site. -/
def find_bad_pattern (text : String) : List (String × List String) → Option (String × String)
  | [] => none
  | (cat, pats) :: rest =>
    match pats.find? (fun p => containsSub text p) with
    | some p => some (cat, p)
    | none => find_bad_pattern text rest

/-- Embeds auto_detect_bad_site(domain, title, description) from quality.py;
the Python (False, None, None) result is none, a (True, category, reason)
result is some (category, reason). -/
def auto_detect_bad_site (domain title description : String) :
    Option (String × String) :=
  let text := lowerStr (title ++ " " ++ description)
  match find_bad_pattern text AUTO_DETECT_BAD with
  | some (cat, pat) => some (cat, "Auto-detected: \x27" ++ pat ++ "\x27")
  | none =>
    if pyStrip (lowerStr description) = pyStrip (lowerStr domain) then
      some ("minimal_content", "Description same as domain")
    else if description.length < 15 && !containsSub (lowerStr domain) "molt"
        && !containsSub (lowerStr domain) "claw" then
      some ("minimal_content", "Very short description, not molt domain")
    else
      none

/-- Embeds is_false_positive(domain, title, description) from quality.py.
The exclusion registry and the aggregator-featured set are loaded from JSON
files at run time; they are passed here as the parameters excluded and
aggregatorFeatured. -/
def is_false_positive (excluded aggregatorFeatured : List String)
    (domain title description : String) : Bool :=
  let domainLower := pyReplace (lowerStr domain) "www." ""
  if excluded.contains domainLower then true
  else if aggregatorFeatured.contains domainLower then true
  else if isPrefixB ("mailto:".toList) domainLower.toList then true
  else (auto_detect_bad_site domainLower title description).isSome

/-- One step of the relevance keyword loop of calculate_relevance. -/
def relevance_step (text : String) (acc : Int × List String)
    (kw : String × Int) : Int × List String :=
  if containsSub text kw.1 then (acc.1 + kw.2 * 10, acc.2 ++ [kw.1]) else acc

/-- Embeds calculate_relevance(domain, title, description) from quality.py,
returning the (score, matched-keywords) pair. -/
def calculate_relevance (excluded aggregatorFeatured : List String)
    (domain title description : String) : Int × List String :=
  if is_false_positive excluded aggregatorFeatured domain title description then
    (0, ["FALSE_POSITIVE"])
  else
    let text := lowerStr (domain ++ " " ++ title ++ " " ++ description)
    let sm := RELEVANCE_KEYWORDS.foldl (relevance_step text) (0, [])
    let score := sm.1
    let domainLower := lowerStr domain
    let isMoltDomain :=
      ["molt", "claw", "lobster", "craber"].any (fun k => containsSub domainLower k)
    let score := if isMoltDomain then score + 30 else score
    let score :=
      if containsSub domainLower "agent" && !isMoltDomain then score + 10 else score
    let score :=
      if description = "Discovered at " ++ domain || description = domain then
        max 0 (score - (if isMoltDomain then 10 else 20))
      else score
    let score :=
      if pyStrip (lowerStr description) = pyStrip domainLower then
        max 0 (score - (if isMoltDomain then 15 else 30))
      else score
    let score :=
      if description.length < 20 then
        max 0 (score - (if isMoltDomain then 5 else 10))
      else score
    (min 100 score, sm.2)

/-- Embeds calculate_trust(domain, title, description, notes) from
quality.py; trust levels are the literal strings of the source. -/
def calculate_trust (excluded aggregatorFeatured : List String)
    (domain title description notes : String) : String :=
  let text := lowerStr (domain ++ " " ++ title ++ " " ++ description ++ " " ++ notes)
  if is_false_positive excluded aggregatorFeatured domain title description then
    "untrusted"
  else if RED_FLAGS.any (fun f => containsSub text f) then "untrusted"
  else
    let rm := calculate_relevance excluded aggregatorFeatured domain title description
    if rm.2.contains "FALSE_POSITIVE" then "untrusted"
    else if rm.1 ≥ 60 then "high"
    else if rm.1 ≥ 30 then "medium"
    else "low"

/-! ## crawler.py: constant tables -/

/-- KEYWORDS from crawler.py: ecosystem keywords for interesting domains. -/
def KEYWORDS : List String :=
  ["molt", "claw", "lobster", "crab", "crustacean", "shell", "exo",
   "agent", "agentic", "bot", "autonomous"]

/-- SKIP from crawler.py: mainstream sites (a Python set; only membership
and substring scans are used, so the order is immaterial). -/
def SKIP : List String :=
  ["google.com", "facebook.com", "twitter.com", "x.com", "github.com",
   "youtube.com", "linkedin.com", "instagram.com", "reddit.com",
   "discord.com", "telegram.org", "medium.com", "substack.com",
   "notion.so", "vercel.app", "netlify.app", "cloudflare.com",
   "tailwindcss.com", "unpkg.com", "jsdelivr.net", "googleapis.com",
   "gstatic.com", "w3.org", "schema.org", "apple.com", "microsoft.com"]

/-- PARKED_INDICATORS from crawler.py. -/
def PARKED_INDICATORS : List String :=
  ["buy this domain", "domain is for sale", "domain for sale",
   "parked", "for sale", "purchase this domain", "make an offer",
   "hugedomains", "godaddy", "namecheap", "dan.com", "sedo.com",
   "afternic", "domainmarket", "brandbucket", "squadhelp",
   "domain available", "inquire about", "sponsored listings"]

/-! ## crawler.py: normalize

Crawler.normalize parses the URL with urlparse (prepending "https://" when
no "://" occurs), lowercases the netloc and strips one leading "www.".
The relevant stdlib behaviour of urlparse is embedded below: an optional
leading scheme (letter followed by scheme characters, up to the first
colon) is removed, and the netloc is the text after "//" up to the first
of "/", "?", "#" (empty when the remainder does not start with "//"). -/

/-- Index of the first colon, embedding Python str.find for a colon
(none instead of -1). -/
def pyFindColon : List Char → Option Nat
  | [] => none
  | c :: cs => if c = ':' then some 0 else (pyFindColon cs).map (· + 1)

/-- Valid characters of a URL scheme after the first (urllib scheme_chars). -/
def schemeChar (c : Char) : Bool :=
  c.isAlpha || c.isDigit || c = '+' || c = '-' || c = '.'

/-- Characters allowed inside a netloc: everything up to the first
delimiter among /, ? and #. -/
def netlocChar (c : Char) : Bool :=
  !(c = '/' || c = '?' || c = '#')

/-- Removes a valid leading "scheme:" from a URL, embedding the scheme
splitting step of urlsplit. -/
def schemeRest (l : List Char) : List Char :=
  match pyFindColon l with
  | some i =>
    if 0 < i ∧ (l.headD ' ').isAlpha = true ∧ (l.take i).all schemeChar = true then
      l.drop (i + 1)
    else l
  | none => l

/-- The netloc of a URL as a char list, embedding urlparse(...).netloc:
empty unless the remainder after the scheme starts with "//", else the
text after "//" up to the first delimiter. -/
def pyNetloc (l : List Char) : List Char :=
  if isPrefixB ("//".toList) (schemeRest l) then
    ((schemeRest l).drop 2).takeWhile netlocChar
  else []

/-- Embeds Crawler.normalize(url) from crawler.py: parse (prepending
https:// when no "://" occurs), take the netloc, lowercase it, strip one
leading "www.". -/
def Crawler.normalize (url : String) : String :=
  let u := if containsSub url "://" then url else "https://" ++ url
  let d := (pyNetloc u.toList).map Char.toLower
  String.mk (if isPrefixB ("www.".toList) d then d.drop 4 else d)

/-- Embeds Crawler.is_interesting(domain) from crawler.py. -/
def is_interesting (domain : String) : Bool :=
  let d := lowerStr domain
  if SKIP.any (fun s => containsSub d s) then false
  else KEYWORDS.any (fun k => containsSub d k)

/-! ## crawler.py: is_parked -/

/-- The number of distinct parked-page indicator phrases occurring in the
lowercased HTML, embedding the parked_count sum of Crawler.is_parked. -/
def parked_count (html : String) : Nat :=
  (PARKED_INDICATORS.filter (fun p => containsSub (lowerStr html) p)).length

/-- Embeds Crawler.is_parked(html) from crawler.py. The
BeautifulSoup step (drop script/style/noscript tags and take the visible
text) is the oracle parameter strip; a none result stands for the except
branch that skips the visible-text check. -/
def is_parked (strip : String → Option String) (html : String) : Bool :=
  if html = "" ∨ html.length < 500 then true
  else if parked_count html ≥ 2 then true
  else
    match strip html with
    | some text =>
      if text.length < 200 ∨ word_count text < 30 then true
      else decide (parked_count html ≥ 1) && decide (html.length < 5000)
    | none => decide (parked_count html ≥ 1) && decide (html.length < 5000)

/-! ## crawler.py: fetch -/

/-- Outcome of one HTTP GET as seen by Crawler.fetch: a response with a
final status and body, a timeout, or a connection error (the latter two
cover every exception path of the aiohttp call). -/
inductive HttpOutcome where
  | success (status : Nat) (body : String)
  | timeout
  | connError
deriving DecidableEq

/-- Embeds Crawler.fetch from crawler.py as a function of the network
outcome: status 200 yields (body, True); any other status yields
(None, status < 500); every exception (timeout, connection error) is
caught and yields (None, False). Totality of this function embeds the
fact that fetch never raises to its caller. -/
def fetch : HttpOutcome → Option String × Bool
  | .success s b => if s = 200 then (some b, true) else (none, decide (s < 500))
  | .timeout => (none, false)
  | .connError => (none, false)

/-! ## crawler.py: extract_domains

extract_domains walks the anchor hrefs of the parsed page (resolving each
against the base URL with urljoin and normalizing) and additionally scans
the re-serialized page text with the regular expression
https?://([a-zA-Z0-9][-a-zA-Z0-9.]*\.[a-zA-Z]{2,}) adding each captured
group lowercased. BeautifulSoup parsing is parameterised: anchors is the
href list of the parsed document, rendered its re-serialization str(soup),
and resolve embeds urljoin. The regular-expression scan itself is embedded
below (left-to-right, non-overlapping, greedy). -/

/-- Character class [-a-zA-Z0-9.] of the crawler URL pattern. -/
def urlChar (c : Char) : Bool :=
  c = '-' || c.isAlpha || c.isDigit || c = '.'

/-- Character class [a-zA-Z0-9] opening the captured group. -/
def urlStartChar (c : Char) : Bool :=
  c.isAlpha || c.isDigit

/-- Largest index k of run with run[k] a dot followed by at least two
letters, i.e. the backtracking point of the greedy star of the pattern. -/
def lastDotIdx (run : List Char) : Option Nat :=
  ((List.range run.length).reverse).find? (fun k =>
    run.getD k ' ' = '.' && (run.getD (k + 1) ' ').isAlpha
      && (run.getD (k + 2) ' ').isAlpha)

/-- Matches [a-zA-Z0-9][-a-zA-Z0-9.]*\.[a-zA-Z]{2,} greedily at the head
of l, returning the captured group and the rest of the input. -/
def matchDomain (l : List Char) : Option (List Char × List Char) :=
  match l with
  | [] => none
  | c :: cs =>
    if urlStartChar c then
      let run := cs.takeWhile urlChar
      match lastDotIdx run with
      | some k =>
        let alphas := ((run.drop (k + 1)).takeWhile Char.isAlpha).length
        some (c :: run.take (k + 1 + alphas), cs.drop (k + 1 + alphas))
      | none => none
    else none

/-- Strips a leading http:// or https:// (the literal part of the URL
pattern, with the optional s greedy). -/
def matchHttpScheme (l : List Char) : Option (List Char) :=
  if isPrefixB ("https://".toList) l then some (l.drop 8)
  else if isPrefixB ("http://".toList) l then some (l.drop 7)
  else none

/-- One left-to-right non-overlapping scan step of re.finditer for the
crawler URL pattern; fuel decreases at every consumed character. -/
def scanAux : Nat → List Char → List (List Char)
  | 0, _ => []
  | _, [] => []
  | fuel + 1, l =>
    match matchHttpScheme l with
    | some afterScheme =>
      match matchDomain afterScheme with
      | some (g, rest) => g :: scanAux fuel rest
      | none => scanAux fuel l.tail
    | none => scanAux fuel l.tail

/-- All captured groups of re.finditer over the text for the crawler URL
pattern, embedding the raw-text scan of extract_domains. -/
def regexDomains (s : String) : List String :=
  (scanAux s.toList.length s.toList).map String.mk

/-- Appends an element to a deduplicated list when absent, embedding
set.add of Python. -/
def setAdd (acc : List String) (d : String) : List String :=
  if d ∈ acc then acc else acc ++ [d]

/-- Embeds Crawler.extract_domains(html, base_url) from crawler.py.
anchors and rendered are the parsed document oracle (href list and
str(soup)); resolve embeds urljoin. Branch (a) resolves each href against
the base URL and normalizes it, branch (b) adds each raw-scanned domain
lowercased; the result is the deduplicated union. -/
def extract_domains (resolve : String → String → String)
    (anchors : List String) (rendered : String) (base_url : String) :
    List String :=
  let withAnchors := anchors.foldl (fun acc href =>
    let d := Crawler.normalize (resolve base_url href)
    if d ≠ "" then setAdd acc d else acc) []
  (regexDomains rendered).foldl (fun acc m => setAdd acc (lowerStr m)) withAnchors

/-- Modelled from the spec: the claim C8 reading of extract_domains in
which the normalization (lowercase, scheme stripped, leading "www."
removed) is applied uniformly to both sources, i.e. raw-scanned domains
also pass through Crawler.normalize. Only the raw-scan branch differs
from extract_domains. -/
def spec_extract_domains (resolve : String → String → String)
    (anchors : List String) (rendered : String) (base_url : String) :
    List String :=
  let withAnchors := anchors.foldl (fun acc href =>
    let d := Crawler.normalize (resolve base_url href)
    if d ≠ "" then setAdd acc d else acc) []
  (regexDomains rendered).foldl (fun acc m =>
    setAdd acc (Crawler.normalize m)) withAnchors

/-! ## crawler.py: Database -/

/-- A site record of the registry (the per-domain JSON object written by
Database.add). -/
structure SiteRec where
  url : String
  source : String
  alive : Bool
  has_content : Bool
  title : String
  first_seen : String
deriving DecidableEq, Repr

/-- First-match association lookup, embedding Python dict access on the
sites mapping. -/
def lookupSite : List (String × SiteRec) → String → Option SiteRec
  | [], _ => none
  | kv :: rest, d => if kv.1 = d then some kv.2 else lookupSite rest d

/-- Embeds Database.add from crawler.py. now stands for
datetime.now().isoformat() at the call. A new domain is inserted with
first_seen := now; an existing record gets alive and has_content
overwritten and title overwritten only when the supplied title is
non-empty. Returns (is_new, updated sites). -/
def Database.add (sites : List (String × SiteRec)) (now domain url source : String)
    (alive has_content : Bool) (title : String) :
    Bool × List (String × SiteRec) :=
  match lookupSite sites domain with
  | none =>
    (true, sites ++ [(domain, ⟨url, source, alive, has_content, title, now⟩)])
  | some _ =>
    (false, sites.map (fun kv =>
      if kv.1 = domain then
        (kv.1, { kv.2 with
                  alive := alive
                  has_content := has_content
                  title := if title ≠ "" then title else kv.2.title })
      else kv))

/-! ## crawler.py: crawl orchestration

The per-domain machinery of Crawler.crawl and Crawler.batch_check_sites.
Network and parsing effects are collected in an environment of oracles:
web maps a URL to its HTTP outcome, extract gives the candidate domains
that extract_domains would return for a page (html, base URL), strip and
title are the BeautifulSoup visible-text and title oracles of is_parked
and get_title. The asyncio gather of the source awaits one task per
domain and tolerates individual failures; the embedding processes the
same domains sequentially (the spec guarantees no ordering). -/

structure Env where
  web : String → HttpOutcome
  extract : String → String → List String
  strip : String → Option String
  title : String → String

/-- The mutable crawler state: the visited set, the registry sites dict
and the discoveries list. -/
structure CState where
  visited : List String
  db : List (String × SiteRec)
  discoveries : List String
deriving Repr

/-- Embeds check_one (the inner coroutine of Crawler.batch_check_sites):
skip when visited, mark visited, fetch https://domain, drop dead domains,
classify, record in the database and collect a fresh discovery. -/
def checkOne (env : Env) (now source : String) (st : CState) (domain : String) :
    CState :=
  if domain ∈ st.visited then st
  else
    let st1 : CState := { st with visited := st.visited ++ [domain] }
    let url := "https://" ++ domain
    let fr := fetch (env.web url)
    if fr.2 = false then st1
    else
      let hasContent := match fr.1 with
        | none => false
        | some h => if h = "" then false else !is_parked env.strip h
      let titl := match fr.1 with
        | none => ""
        | some h => if h = "" then "" else env.title h
      let r := Database.add st1.db now domain url source true hasContent titl
      let st2 : CState := { st1 with db := r.2 }
      { st2 with discoveries :=
          if hasContent && r.1 then st2.discoveries ++ [domain] else st2.discoveries }

/-- Embeds Crawler.batch_check_sites over a list of domains. -/
def batch_check_sites (env : Env) (now source : String) (st : CState)
    (domains : List String) : CState :=
  domains.foldl (checkOne env now source) st

/-- The candidate list of Crawler.crawl link expansion: domains extracted
from the page that are unvisited and interesting. -/
def link_candidates (env : Env) (visited : List String) (h url : String) :
    List String :=
  (env.extract h url).filter (fun d => !decide (d ∈ visited) && is_interesting d)

/-- Embeds Crawler.crawl(url, depth) from crawler.py: normalize, visited
guard, fetch, classify, record, and when the page has content and
depth < 2 run batch_check_sites over the first 20 unvisited interesting
extracted domains. Candidates go through batch_check_sites, which does
not extract links or recurse. -/
def crawl (env : Env) (now : String) (st : CState) (url : String) (depth : Nat) :
    CState :=
  let domain := Crawler.normalize url
  if domain = "" ∨ domain ∈ st.visited then st
  else
    let st1 : CState := { st with visited := st.visited ++ [domain] }
    let fr := fetch (env.web url)
    let hasContent := match fr.1 with
      | none => false
      | some h => if h = "" then false else !is_parked env.strip h
    let titl := match fr.1 with
      | none => ""
      | some h => if h = "" then "" else env.title h
    let r := Database.add st1.db now domain url "crawl" fr.2 hasContent titl
    let st2 : CState := { st1 with db := r.2 }
    let st3 : CState := { st2 with discoveries :=
      if r.1 && hasContent then st2.discoveries ++ [domain] else st2.discoveries }
    match fr.1 with
    | some h =>
      if h ≠ "" && hasContent && decide (depth < 2) then
        let newDomains := link_candidates env st3.visited h url
        if newDomains ≠ [] then
          batch_check_sites env now "link" st3 (newDomains.take 20)
        else st3
      else st3
    | none => st3

/-- Modelled from the spec: the claim C5 reading of the state machine in
which every filtered, capped candidate recursively enters crawl itself at
depth + 1 (so candidates expand their own links while depth < 2), instead
of the non-recursive batch_check_sites path of the source. fuel bounds the
recursion depth and is consumed once per nesting level. -/
def spec_crawl (env : Env) (now : String) :
    Nat → CState → String → Nat → CState
  | 0, st, _, _ => st
  | fuel + 1, st, url, depth =>
    let domain := Crawler.normalize url
    if domain = "" ∨ domain ∈ st.visited then st
    else
      let st1 : CState := { st with visited := st.visited ++ [domain] }
      let fr := fetch (env.web url)
      let hasContent := match fr.1 with
        | none => false
        | some h => if h = "" then false else !is_parked env.strip h
      let titl := match fr.1 with
        | none => ""
        | some h => if h = "" then "" else env.title h
      let r := Database.add st1.db now domain url "crawl" fr.2 hasContent titl
      let st2 : CState := { st1 with db := r.2 }
      let st3 : CState := { st2 with discoveries :=
        if r.1 && hasContent then st2.discoveries ++ [domain] else st2.discoveries }
      match fr.1 with
      | some h =>
        if h ≠ "" && hasContent && decide (depth < 2) then
          let newDomains := link_candidates env st3.visited h url
          (newDomains.take 20).foldl
            (fun s d => spec_crawl env now fuel s ("https://" ++ d) (depth + 1))
            st3
        else st3
      | none => st3

/-! ## dedupe.py -/

/-- TLD_PRIORITY from dedupe.py, in dict insertion order. -/
def TLD_PRIORITY : List (String × Int) :=
  [(".com", 100), (".io", 90), (".ai", 85), (".app", 80), (".dev", 75),
   (".org", 70), (".net", 65), (".co", 60), (".xyz", 50), (".live", 45),
   (".bot", 40), (".space", 35), (".town", 30), (".gg", 25)]

/-- The TLD keys sorted by length descending (Python sorted with key=len,
reverse=True, which is stable, so equal lengths keep dict order). -/
def TLD_KEYS_BY_LEN : List String :=
  [".space", ".live", ".town", ".com", ".app", ".dev", ".org", ".net",
   ".xyz", ".bot", ".io", ".ai", ".co", ".gg"]

/-- KNOWN_DIFFERENT from dedupe.py: unordered pairs of domains declared to
be different products sharing a base name. -/
def KNOWN_DIFFERENT : List (String × String) :=
  [("moltbook.com", "moltbook.town"),
   ("moltbook.com", "moltbook.co"),
   ("moltbook.town", "moltbook.co"),
   ("clawcity.app", "clawcity.xyz"),
   ("molt.bot", "molt.church"),
   ("moltbook.com", "molt.church")]

/-- A registry record as consumed by dedupe.py (a portals.json entry;
absent JSON keys are the Python .get defaults). -/
structure Portal where
  url : String
  relevance : Int
  trust : String
  description : String
  featured : Bool
deriving DecidableEq, Repr

/-- The domain of a portal URL as dedupe.py computes it:
url.split("//")[1].split("/")[0].replace("www.", "").lower(). -/
def dedupe_domain (url : String) : String :=
  lowerStr (pyReplace (((pySplitOn url "//").getD 1 "" |> (pySplitOn · "/")).getD 0 "") "www." "")

/-- Embeds get_base_name(url) from dedupe.py: strip the longest matching
known TLD, falling back to dropping the last dot component. -/
def get_base_name (url : String) : String :=
  let domain := dedupe_domain url
  match TLD_KEYS_BY_LEN.find? (fun tld => isSuffixB tld.toList domain.toList) with
  | some tld => String.mk (domain.toList.take (domain.length - tld.length))
  | none =>
    let parts := pySplitOn domain "."
    if parts.length > 1 then
      joinSep "." (parts.dropLast)
    else domain

/-- Embeds get_tld(url) from dedupe.py. -/
def get_tld (url : String) : String :=
  let domain := dedupe_domain url
  match TLD_KEYS_BY_LEN.find? (fun tld => isSuffixB tld.toList domain.toList) with
  | some tld => tld
  | none =>
    let parts := pySplitOn domain "."
    if parts.length > 1 then "." ++ parts.getLastD "" else ""

/-- Embeds the trust_bonus table of score_portal. -/
def trust_bonus : String → Int
  | "verified" => 100
  | "high" => 50
  | "medium" => 25
  | "low" => 0
  | "untrusted" => -50
  | _ => 0

/-- Embeds score_portal(portal) from dedupe.py. -/
def score_portal (p : Portal) : Int :=
  let tldScore := ((TLD_PRIORITY.find? (fun kv => kv.1 = get_tld p.url)).map
    (fun kv => kv.2)).getD 20
  let descBonus :=
    if p.description ≠ "" && !containsSub p.description "Parked"
        && !containsSub p.description "Hostinger" then 20 else 0
  let featBonus : Int := if p.featured then 30 else 0
  tldScore + p.relevance + trust_bonus p.trust + descBonus + featBonus

/-- Embeds is_known_different(url1, url2) from dedupe.py. -/
def is_known_different (url1 url2 : String) : Bool :=
  let d1 := dedupe_domain url1
  let d2 := dedupe_domain url2
  KNOWN_DIFFERENT.contains (d1, d2) || KNOWN_DIFFERENT.contains (d2, d1)

/-- Every unordered pair of the URL list is declared known-different,
embedding the all(...) comprehension over index pairs i < j. -/
def all_known_different : List String → Bool
  | [] => true
  | u :: rest => rest.all (fun v => is_known_different u v) && all_known_different rest

/-- Stable descending insertion by score: an element is placed before the
first strictly smaller score, so equal scores keep their original order —
the same result as the stable Python sort with reverse=True. -/
def insertByScoreDesc (x : Int × Portal) : List (Int × Portal) → List (Int × Portal)
  | [] => [x]
  | y :: ys => if y.1 ≤ x.1 then x :: y :: ys else y :: insertByScoreDesc x ys

/-- Stable descending sort by score (scored.sort(key=lambda x: x[0],
reverse=True) of dedupe.py). -/
def sortByScoreDesc : List (Int × Portal) → List (Int × Portal)
  | [] => []
  | x :: xs => insertByScoreDesc x (sortByScoreDesc xs)

/-- The per-group body of the find_duplicates loop: skip the group when
every pair is known-different; otherwise keep the top scorer and flag
every other member that is not known-different from it and is either more
than 30 points below the top score or of low/untrusted trust. -/
def process_group (portals : List Portal) : List Portal :=
  if all_known_different (portals.map (fun p => p.url)) then []
  else
    let scored := portals.map (fun p => (score_portal p, p))
    match sortByScoreDesc scored with
    | [] => []
    | best :: rest =>
      rest.filterMap (fun sp =>
        if is_known_different best.2.url sp.2.url then none
        else if sp.1 < best.1 - 30 || sp.2.trust = "low" || sp.2.trust = "untrusted" then
          some sp.2
        else none)

/-- Boolean lexicographic string comparison by code point, the comparison
Python uses when sorting the duplicate base names. -/
def lexLe : List Char → List Char → Bool
  | [], _ => true
  | _ :: _, [] => false
  | a :: as_, b :: bs =>
    if a.toNat < b.toNat then true
    else if b.toNat < a.toNat then false
    else lexLe as_ bs

/-- Stable insertion into an ascending list of strings. -/
def insertStrAsc (x : String) : List String → List String
  | [] => [x]
  | y :: ys => if lexLe x.toList y.toList then x :: y :: ys else y :: insertStrAsc x ys

/-- Ascending sort of strings (sorted(duplicates.items()) key order). -/
def sortStrAsc : List String → List String
  | [] => []
  | x :: xs => insertStrAsc x (sortStrAsc xs)

/-- The base-name keys in first-occurrence order, embedding the insertion
order of the defaultdict grouping of find_duplicates. -/
def base_keys (portals : List Portal) : List String :=
  portals.foldl (fun acc p =>
    let b := get_base_name p.url
    if acc.contains b then acc else acc ++ [b]) []

/-- The group of portals sharing a base name, in registry order. -/
def base_group (portals : List Portal) (b : String) : List Portal :=
  portals.filter (fun p => get_base_name p.url = b)

/-- Embeds find_duplicates() from dedupe.py, returning the flagged
to_remove list: group the registry by base name, keep groups with more
than one member, walk them in sorted key order and apply the per-group
body. -/
def find_duplicates (portals : List Portal) : List Portal :=
  let dupKeys := (base_keys portals).filter
    (fun b => (base_group portals b).length > 1)
  (sortStrAsc dupKeys).flatMap (fun b => process_group (base_group portals b))

/-! ## Concrete instances used to evaluate the embedding -/

/-- The registry used to exercise find_duplicates: one strong molt.com
record and two weak records whose pair is declared known-different. -/
def cexPortals : List Portal :=
  [⟨"https://molt.com", 80, "high", "Great molt site", true⟩,
   ⟨"https://molt.bot", 0, "untrusted", "", false⟩,
   ⟨"https://molt.church", 0, "untrusted", "", false⟩]

/-- A 500-character page body (long enough to clear the length check and
free of parked indicators). -/
def cexHtml : String := String.mk (List.replicate 500 'x')

/-- A visible text of 30 words and over 200 characters (clears the
thin-content check). -/
def cexText : String := joinSep " " (List.replicate 30 "abcdefg")

/-- A concrete crawl environment: every URL serves cexHtml with status
200; the page at a.com links to moltb.com and the page at moltb.com
links to moltc.com. -/
def cexEnv : Env where
  web := fun _ => .success 200 cexHtml
  extract := fun _ base =>
    if base = "https://a.com" then ["moltb.com"]
    else if base = "https://moltb.com" then ["moltc.com"]
    else []
  strip := fun _ => some cexText
  title := fun _ => "T"

/-- The empty initial crawler state. -/
def cexState : CState := ⟨[], [], []⟩

/-! ## Theorems -/

/-- Claim C1: is_parked returns true exactly when the body is shorter
than 500 characters, or at least 2 distinct parked-page indicator phrases
occur case-insensitively, or the stripped visible text is under 200
characters or under 30 words, or exactly 1 indicator occurs and the raw
HTML is under 5000 characters; in particular every body under 500
characters is parked. The visible-text condition is stated for whichever
text the stripping oracle yields (none models the except path). -/
theorem is_parked_iff (strip : String → Option String) (html : String) :
    (is_parked strip html = true ↔
      html.length < 500 ∨ 2 ≤ parked_count html ∨
      (∃ t, strip html = some t ∧ (t.length < 200 ∨ word_count t < 30)) ∨
      (parked_count html = 1 ∧ html.length < 5000))
    ∧ (html.length < 500 → is_parked strip html = true) := by
  have main : is_parked strip html = true ↔
      html.length < 500 ∨ 2 ≤ parked_count html ∨
      (∃ t, strip html = some t ∧ (t.length < 200 ∨ word_count t < 30)) ∨
      (parked_count html = 1 ∧ html.length < 5000) := by
    unfold is_parked
    by_cases h0 : html = "" ∨ html.length < 500
    · rw [if_pos h0]
      have hlen : html.length < 500 := by
        rcases h0 with h | h
        · subst h; decide
        · exact h
      simp [hlen]
    · rw [if_neg h0]
      have h2 : ¬ html.length < 500 := fun hl => h0 (Or.inr hl)
      by_cases hc : parked_count html ≥ 2
      · simp [hc]
      · rw [if_neg hc]
        cases hs : strip html with
        | some t =>
          by_cases h3 : t.length < 200 ∨ word_count t < 30
          · simp only [if_pos h3]
            constructor
            · intro _
              exact Or.inr (Or.inr (Or.inl ⟨t, rfl, h3⟩))
            · intro _; trivial
          · simp only [if_neg h3, Bool.and_eq_true, decide_eq_true_eq]
            constructor
            · rintro ⟨hg, hl⟩
              exact Or.inr (Or.inr (Or.inr ⟨by omega, hl⟩))
            · rintro (h | h | ⟨t', ht', hw⟩ | ⟨he, hl⟩)
              · exact absurd h h2
              · exact absurd h hc
              · cases ht'
                exact absurd hw h3
              · exact ⟨by omega, hl⟩
        | none =>
          simp only [Bool.and_eq_true, decide_eq_true_eq]
          constructor
          · rintro ⟨hg, hl⟩
            exact Or.inr (Or.inr (Or.inr ⟨by omega, hl⟩))
          · rintro (h | h | ⟨t', ht', hw⟩ | ⟨he, hl⟩)
            · exact absurd h h2
            · exact absurd h hc
            · cases ht'
            · exact ⟨by omega, hl⟩
  exact ⟨main, fun h => main.mpr (Or.inl h)⟩

/-- Witness for C1 at a concrete short body. -/
theorem is_parked_iff_witness : is_parked (fun _ => none) "x" = true :=
  (is_parked_iff (fun _ => none) "x").2 (by decide)

theorem relevance_fold_nonneg (text : String) (l : List (String × Int))
    (acc : Int × List String) (hl : ∀ kv ∈ l, 0 ≤ kv.2) (hacc : 0 ≤ acc.1) :
    0 ≤ (l.foldl (relevance_step text) acc).1 := by
  induction l generalizing acc with
  | nil => simpa using hacc
  | cons kv rest ih =>
    simp only [List.foldl_cons]
    apply ih
    · intro x hx; exact hl x (List.mem_cons_of_mem _ hx)
    · unfold relevance_step
      split
      · have hk := hl kv (List.mem_cons_self _ _)
        simp only []
        omega
      · exact hacc

/-- Claim C2: for every (domain, title, description) triple (and any
loaded exclusion and aggregator-featured data) the score returned by
calculate_relevance is an integer in the closed interval [0, 100]. -/
theorem calculate_relevance_mem_bounds (ex ag : List String) (d t desc : String) :
    0 ≤ (calculate_relevance ex ag d t desc).1 ∧
    (calculate_relevance ex ag d t desc).1 ≤ 100 := by
  unfold calculate_relevance
  split
  · simp
  · have h0 : 0 ≤ (RELEVANCE_KEYWORDS.foldl
        (relevance_step (lowerStr (d ++ " " ++ t ++ " " ++ desc))) ((0 : Int), ([] : List String))).1 :=
      relevance_fold_nonneg _ _ _ (by decide) (by simp)
    dsimp only
    split_ifs <;> constructor <;> omega

theorem fp_forces (ex ag : List String) (d t desc : String)
    (h : is_false_positive ex ag d t desc = true) :
    calculate_relevance ex ag d t desc = (0, ["FALSE_POSITIVE"]) ∧
    ∀ notes, calculate_trust ex ag d t desc notes = "untrusted" := by
  constructor
  · unfold calculate_relevance
    rw [if_pos h]
  · intro notes
    unfold calculate_trust
    rw [if_pos h]

/-- Claim C3: whenever is_false_positive returns true on a triple,
calculate_relevance returns exactly (0, [FALSE_POSITIVE]) and
calculate_trust returns "untrusted" for any notes string. -/
theorem fp_zero_untrusted (ex ag : List String) (d t desc notes : String)
    (h : is_false_positive ex ag d t desc = true) :
    calculate_relevance ex ag d t desc = (0, ["FALSE_POSITIVE"]) ∧
    calculate_trust ex ag d t desc notes = "untrusted" :=
  ⟨(fp_forces ex ag d t desc h).1, (fp_forces ex ag d t desc h).2 notes⟩

theorem fp_zero_untrusted_witness :
    is_false_positive [] [] "mailto:x" "" "" = true ∧
    calculate_relevance [] [] "mailto:x" "" "" = (0, ["FALSE_POSITIVE"]) ∧
    calculate_trust [] [] "mailto:x" "" "" "n" = "untrusted" :=
  ⟨by decide, fp_zero_untrusted [] [] "mailto:x" "" "" "n" (by decide)⟩

/-- Claim C4: fetch yields (body, true) on status 200, (None, true) on
any status in [300, 499], and (None, false) on timeout, connection error
or status at least 500. fetch is a total function of the outcome: every
failure is returned as data, never raised. -/
theorem fetch_status_cases (o : HttpOutcome) :
    (∀ b, o = .success 200 b → fetch o = (some b, true)) ∧
    (∀ s b, o = .success s b → 300 ≤ s → s ≤ 499 → fetch o = (none, true)) ∧
    (o = .timeout → fetch o = (none, false)) ∧
    (o = .connError → fetch o = (none, false)) ∧
    (∀ s b, o = .success s b → 500 ≤ s → fetch o = (none, false)) := by
  refine ⟨?_, ?_, ?_, ?_, ?_⟩
  · rintro b rfl; rfl
  · rintro s b rfl hlo hhi
    simp only [fetch]
    rw [if_neg (by omega : ¬ s = 200)]
    simp only [Prod.mk.injEq, true_and, decide_eq_true_eq]
    omega
  · rintro rfl; rfl
  · rintro rfl; rfl
  · rintro s b rfl hge
    simp only [fetch]
    rw [if_neg (by omega : ¬ s = 200)]
    simp only [Prod.mk.injEq, true_and, decide_eq_false_iff_not]
    omega

theorem fetch_status_cases_witness :
    fetch (.success 200 "body") = (some "body", true) ∧
    fetch (.success 404 "x") = (none, true) ∧
    fetch .timeout = (none, false) ∧
    fetch .connError = (none, false) ∧
    fetch (.success 502 "y") = (none, false) :=
  ⟨(fetch_status_cases _).1 "body" rfl,
   (fetch_status_cases _).2.1 404 "x" rfl (by omega) (by omega),
   (fetch_status_cases _).2.2.1 rfl,
   (fetch_status_cases _).2.2.2.1 rfl,
   (fetch_status_cases _).2.2.2.2 502 "y" rfl (by omega)⟩

theorem lookup_append_singleton (sites : List (String × SiteRec)) (d : String)
    (r : SiteRec) (h : lookupSite sites d = none) :
    lookupSite (sites ++ [(d, r)]) d = some r := by
  induction sites with
  | nil => simp [lookupSite]
  | cons kv rest ih =>
    simp only [lookupSite] at h
    by_cases hk : kv.1 = d
    · rw [if_pos hk] at h
      exact absurd h (by simp)
    · rw [if_neg hk] at h
      simp only [List.cons_append, lookupSite, if_neg hk]
      exact ih h

theorem lookup_map_update (sites : List (String × SiteRec)) (d : String)
    (rec : SiteRec) (f : SiteRec → SiteRec) (h : lookupSite sites d = some rec) :
    lookupSite (sites.map (fun kv => if kv.1 = d then (kv.1, f kv.2) else kv)) d =
      some (f rec) := by
  induction sites with
  | nil => simp [lookupSite] at h
  | cons kv rest ih =>
    simp only [lookupSite] at h
    by_cases hk : kv.1 = d
    · rw [if_pos hk] at h
      cases h
      simp only [List.map_cons, if_pos hk, lookupSite]
    · rw [if_neg hk] at h
      simp only [List.map_cons, if_neg hk, lookupSite]
      exact ih h

/-- Claim C9 (amended): a Database.add for a domain already present
refreshes alive and has_content to the supplied values, refreshes title
only when the supplied title is non-empty (an empty title leaves the
stored title unchanged), and leaves url, source and first_seen untouched;
a record is created with first_seen := now exactly when the domain is
absent. -/
theorem database_add_frame (sites : List (String × SiteRec))
    (now domain url source : String) (alive hc : Bool) (title : String) :
    (∀ rec, lookupSite sites domain = some rec →
      (Database.add sites now domain url source alive hc title).1 = false ∧
      lookupSite (Database.add sites now domain url source alive hc title).2 domain =
        some { rec with
               alive := alive
               has_content := hc
               title := if title ≠ "" then title else rec.title }) ∧
    (lookupSite sites domain = none →
      (Database.add sites now domain url source alive hc title).1 = true ∧
      lookupSite (Database.add sites now domain url source alive hc title).2 domain =
        some ⟨url, source, alive, hc, title, now⟩) := by
  constructor
  · intro rec h
    unfold Database.add
    rw [h]
    dsimp only
    exact ⟨rfl, lookup_map_update sites domain rec
      (fun v => { v with
                  alive := alive
                  has_content := hc
                  title := if title ≠ "" then title else v.title }) h⟩
  · intro h
    unfold Database.add
    rw [h]
    exact ⟨rfl, lookup_append_singleton sites domain _ h⟩

theorem database_add_frame_witness :
    (Database.add [("a.com", ⟨"https://a.com", "crawl", true, true, "Old", "t0"⟩)]
        "t1" "a.com" "https://a.com" "crawl" true false "New").1 = false ∧
    lookupSite (Database.add [("a.com", ⟨"https://a.com", "crawl", true, true, "Old", "t0"⟩)]
        "t1" "a.com" "https://a.com" "crawl" true false "New").2 "a.com" =
      some ⟨"https://a.com", "crawl", true, false, "New", "t0"⟩ := by
  have h := (database_add_frame [("a.com", ⟨"https://a.com", "crawl", true, true, "Old", "t0"⟩)]
      "t1" "a.com" "https://a.com" "crawl" true false "New").1
    ⟨"https://a.com", "crawl", true, true, "Old", "t0"⟩ (by decide)
  exact ⟨h.1, by rw [h.2]; decide⟩

theorem database_add_title_cex :
    lookupSite (Database.add [("a.com", ⟨"https://a.com", "crawl", true, true, "Old", "t0"⟩)]
        "t1" "a.com" "https://a.com" "crawl" true false "").2 "a.com" =
      some ⟨"https://a.com", "crawl", true, false, "Old", "t0"⟩ ∧
    ("Old" : String) ≠ "" := by
  constructor
  · decide
  · decide

/-- Claim C10 (amended): when the description, lowercased and stripped,
equals the domain string after lowercasing, removal of every "www."
occurrence, and stripping — the comparison is_false_positive actually
performs — the site is a false positive, so calculate_relevance returns
(0, [FALSE_POSITIVE]) and calculate_trust returns "untrusted" for any
notes. (For a domain containing "www." the claim's original condition,
equality with the raw lowercased domain, does not force a false positive,
and the equals-the-domain penalty inside calculate_relevance can then
lower a nonzero score: see the counterexample.) -/
theorem desc_eq_domain_fp (ex ag : List String) (domain title desc : String)
    (h : pyStrip (lowerStr desc) =
         pyStrip (lowerStr (pyReplace (lowerStr domain) "www." ""))) :
    is_false_positive ex ag domain title desc = true ∧
    calculate_relevance ex ag domain title desc = (0, ["FALSE_POSITIVE"]) ∧
    ∀ notes, calculate_trust ex ag domain title desc notes = "untrusted" := by
  have hfp : is_false_positive ex ag domain title desc = true := by
    unfold is_false_positive
    dsimp only
    split_ifs
    · rfl
    · rfl
    · rfl
    · unfold auto_detect_bad_site
      dsimp only
      rcases hfb : find_bad_pattern (lowerStr (title ++ " " ++ desc)) AUTO_DETECT_BAD
        with _ | ⟨cat, pat⟩
      · simp only [hfb]
        rw [if_pos h]
        rfl
      · simp only [hfb, Option.isSome_some]
  exact ⟨hfp, (fp_forces ex ag domain title desc hfp).1,
         (fp_forces ex ag domain title desc hfp).2⟩

theorem desc_eq_domain_fp_witness :
    is_false_positive [] [] "crabshack.biz" "T" " CRABSHACK.BIZ " = true ∧
    calculate_relevance [] [] "crabshack.biz" "T" " CRABSHACK.BIZ " = (0, ["FALSE_POSITIVE"]) ∧
    calculate_trust [] [] "crabshack.biz" "T" " CRABSHACK.BIZ " "n" = "untrusted" := by
  have H := desc_eq_domain_fp [] [] "crabshack.biz" "T" " CRABSHACK.BIZ " (by decide)
  exact ⟨H.1, H.2.1, H.2.2 "n"⟩

theorem desc_eq_domain_cex :
    pyStrip (lowerStr "www.crabhouse.com") = pyStrip (lowerStr "www.crabhouse.com") ∧
    is_false_positive [] [] "www.crabhouse.com" "" "www.crabhouse.com" = false ∧
    calculate_trust [] [] "www.crabhouse.com" "" "www.crabhouse.com" "" = "low" :=
  ⟨rfl, by decide, by decide⟩

theorem mem_insertByScoreDesc (x y : Int × Portal) (l : List (Int × Portal))
    (h : x ∈ insertByScoreDesc y l) : x = y ∨ x ∈ l := by
  induction l with
  | nil =>
    unfold insertByScoreDesc at h
    simp only [List.mem_singleton] at h
    exact Or.inl h
  | cons a rest ih =>
    unfold insertByScoreDesc at h
    split at h
    · rcases List.mem_cons.mp h with rfl | h
      · exact Or.inl rfl
      · exact Or.inr h
    · rcases List.mem_cons.mp h with rfl | h
      · exact Or.inr (List.mem_cons_self _ _)
      · rcases ih h with h | h
        · exact Or.inl h
        · exact Or.inr (List.mem_cons_of_mem _ h)

theorem mem_sortByScoreDesc (x : Int × Portal) (l : List (Int × Portal))
    (h : x ∈ sortByScoreDesc l) : x ∈ l := by
  induction l with
  | nil =>
    unfold sortByScoreDesc at h
    simp at h
  | cons a rest ih =>
    unfold sortByScoreDesc at h
    rcases mem_insertByScoreDesc _ _ _ h with rfl | h
    · exact List.mem_cons_self _ _
    · exact List.mem_cons_of_mem _ (ih h)

theorem base_group_base (portals : List Portal) (b : String) (p : Portal)
    (h : p ∈ base_group portals b) : get_base_name p.url = b := by
  unfold base_group at h
  have hm := List.mem_filter.mp h
  simpa using hm.2

/-- Claim C6 (amended): the dedup pass never flags a portal that is
declared known-different from the top scorer of the portal's own
base-name group, and it skips entirely any group in which all pairs are
known-different. (Both members of a known-different pair can still be
flagged when neither of them is the group top scorer: see the
counterexample.) -/
theorem find_duplicates_kd_guard (portals : List Portal) :
    (∀ p ∈ find_duplicates portals,
      p ∈ base_group portals (get_base_name p.url) ∧
      ∃ best rest,
        sortByScoreDesc ((base_group portals (get_base_name p.url)).map
          (fun q => (score_portal q, q))) = best :: rest ∧
        is_known_different best.2.url p.url = false) ∧
    (∀ ps : List Portal, all_known_different (ps.map (fun q => q.url)) = true →
      process_group ps = []) := by
  constructor
  · intro p hp
    simp only [find_duplicates] at hp
    obtain ⟨b, hb, hpg⟩ := List.mem_flatMap.mp hp
    unfold process_group at hpg
    by_cases had : all_known_different ((base_group portals b).map (fun q => q.url)) = true
    · rw [if_pos had] at hpg
      simp at hpg
    · rw [if_neg had] at hpg
      dsimp only at hpg
      rcases hsort : sortByScoreDesc ((base_group portals b).map (fun q => (score_portal q, q)))
        with _ | ⟨best, rest⟩
      · rw [hsort] at hpg
        simp at hpg
      · rw [hsort] at hpg
        obtain ⟨sp, hsp, hf⟩ := List.mem_filterMap.mp hpg
        by_cases hkd : is_known_different best.2.url sp.2.url = true
        · rw [if_pos hkd] at hf
          cases hf
        · rw [if_neg hkd] at hf
          have hps : p = sp.2 := by
            by_cases hlow : (decide (sp.1 < best.1 - 30) || decide (sp.2.trust = "low")
                || decide (sp.2.trust = "untrusted")) = true
            · rw [if_pos hlow] at hf
              cases hf
              rfl
            · rw [if_neg hlow] at hf
              cases hf
          have hspmem : sp ∈ sortByScoreDesc ((base_group portals b).map
              (fun q => (score_portal q, q))) := by
            rw [hsort]
            exact List.mem_cons_of_mem _ hsp
          obtain ⟨q, hq, hqe⟩ :=
            List.mem_map.mp (mem_sortByScoreDesc _ _ hspmem)
          have hsp2 : sp.2 = q := by rw [← hqe]
          have hp2 : sp.2 ∈ base_group portals b := by
            rw [hsp2]
            exact hq
          have hbase : get_base_name sp.2.url = b := base_group_base portals b sp.2 hp2
          subst hps
          rw [hbase]
          exact ⟨hp2, best, rest, hsort, by simpa using hkd⟩
  · intro ps had
    unfold process_group
    rw [if_pos had]

theorem find_duplicates_kd_guard_witness :
    (⟨"https://molt.bot", 0, "untrusted", "", false⟩ : Portal) ∈
      base_group cexPortals
        (get_base_name (Portal.mk "https://molt.bot" 0 "untrusted" "" false).url) ∧
    ∃ best rest,
      sortByScoreDesc ((base_group cexPortals
          (get_base_name (Portal.mk "https://molt.bot" 0 "untrusted" "" false).url)).map
        (fun q => (score_portal q, q))) = best :: rest ∧
      is_known_different best.2.url
        (Portal.mk "https://molt.bot" 0 "untrusted" "" false).url = false :=
  (find_duplicates_kd_guard cexPortals).1
    ⟨"https://molt.bot", 0, "untrusted", "", false⟩ (by decide)

theorem dedupe_both_removed_cex :
    ("molt.bot", "molt.church") ∈ KNOWN_DIFFERENT ∧
    dedupe_domain "https://molt.bot" = "molt.bot" ∧
    dedupe_domain "https://molt.church" = "molt.church" ∧
    (⟨"https://molt.bot", 0, "untrusted", "", false⟩ : Portal) ∈ find_duplicates cexPortals ∧
    (⟨"https://molt.church", 0, "untrusted", "", false⟩ : Portal) ∈ find_duplicates cexPortals := by
  refine ⟨by decide, by decide, by decide, by decide, by decide⟩

theorem setAdd_mem (acc : List String) (d x : String) :
    x ∈ setAdd acc d ↔ x ∈ acc ∨ x = d := by
  unfold setAdd
  split
  · rename_i hmem
    constructor
    · exact Or.inl
    · rintro (h | rfl)
      · exact h
      · exact hmem
  · simp

theorem mem_foldl_setAdd (g : String → String) (l : List String)
    (init : List String) (x : String) :
    x ∈ l.foldl (fun acc m => setAdd acc (g m)) init ↔
      x ∈ init ∨ ∃ m ∈ l, g m = x := by
  induction l generalizing init with
  | nil => simp
  | cons m rest ih =>
    simp only [List.foldl_cons]
    rw [ih, setAdd_mem]
    constructor
    · rintro ((h | h) | ⟨m', hm', rfl⟩)
      · exact Or.inl h
      · exact Or.inr ⟨m, List.mem_cons_self _ _, h.symm⟩
      · exact Or.inr ⟨m', List.mem_cons_of_mem _ hm', rfl⟩
    · rintro (h | ⟨m', hm', rfl⟩)
      · exact Or.inl (Or.inl h)
      · rcases List.mem_cons.mp hm' with rfl | hm'
        · exact Or.inl (Or.inr rfl)
        · exact Or.inr ⟨m', hm', rfl⟩

theorem mem_foldl_anchor (resolve : String → String → String) (base : String)
    (anchors : List String) (init : List String) (x : String) :
    x ∈ anchors.foldl (fun acc href =>
        let d := Crawler.normalize (resolve base href)
        if d ≠ "" then setAdd acc d else acc) init ↔
      x ∈ init ∨ ∃ href ∈ anchors, Crawler.normalize (resolve base href) = x ∧ x ≠ "" := by
  induction anchors generalizing init with
  | nil => simp
  | cons a rest ih =>
    simp only [List.foldl_cons]
    rw [ih]
    by_cases hd : Crawler.normalize (resolve base a) ≠ ""
    · rw [if_pos hd, setAdd_mem]
      constructor
      · rintro ((h | rfl) | ⟨a', ha', h1, h2⟩)
        · exact Or.inl h
        · exact Or.inr ⟨a, List.mem_cons_self _ _, rfl, hd⟩
        · exact Or.inr ⟨a', List.mem_cons_of_mem _ ha', h1, h2⟩
      · rintro (h | ⟨a', ha', h1, h2⟩)
        · exact Or.inl (Or.inl h)
        · rcases List.mem_cons.mp ha' with rfl | ha'
          · exact Or.inl (Or.inr h1.symm)
          · exact Or.inr ⟨a', ha', h1, h2⟩
    · rw [if_neg hd]
      push_neg at hd
      constructor
      · rintro (h | ⟨a', ha', h1, h2⟩)
        · exact Or.inl h
        · exact Or.inr ⟨a', List.mem_cons_of_mem _ ha', h1, h2⟩
      · rintro (h | ⟨a', ha', h1, h2⟩)
        · exact Or.inl h
        · rcases List.mem_cons.mp ha' with rfl | ha'
          · rw [hd] at h1
            exact absurd h1.symm h2
          · exact Or.inr ⟨a', ha', h1, h2⟩

/-- Claim C8 (amended): extract_domains returns the deduplicated union
of (a) every anchor href resolved against the base URL and passed through
normalize (scheme stripped, lowercased, one leading "www." removed), and
(b) every domain captured by the raw-text pattern scan with only
lowercasing applied — the leading-"www." removal is not applied to the
raw-scan source, so normalization is not uniform across the two
sources. -/
theorem extract_domains_mem (resolve : String → String → String)
    (anchors : List String) (rendered base : String) (x : String) :
    x ∈ extract_domains resolve anchors rendered base ↔
      (∃ href ∈ anchors, Crawler.normalize (resolve base href) = x ∧ x ≠ "") ∨
      (∃ m ∈ regexDomains rendered, lowerStr m = x) := by
  unfold extract_domains
  rw [mem_foldl_setAdd, mem_foldl_anchor]
  simp

theorem extract_domains_not_uniform_cex :
    extract_domains (fun _ h => h) [] "see https://www.example.com now" "https://x.org" =
      ["www.example.com"] ∧
    spec_extract_domains (fun _ h => h) [] "see https://www.example.com now" "https://x.org" =
      ["example.com"] ∧
    (["www.example.com"] : List String) ≠ ["example.com"] :=
  ⟨by decide, by decide, by decide⟩

theorem checkOne_visited (env : Env) (now source : String) (st : CState) (d : String) :
    (checkOne env now source st d).visited =
      if d ∈ st.visited then st.visited else st.visited ++ [d] := by
  unfold checkOne
  by_cases hmem : d ∈ st.visited
  · rw [if_pos hmem, if_pos hmem]
  · rw [if_neg hmem, if_neg hmem]
    dsimp only
    split <;> rfl

theorem batch_visited_mono (env : Env) (now source : String) (ds : List String)
    (st : CState) (x : String) (hx : x ∈ st.visited) :
    x ∈ (batch_check_sites env now source st ds).visited := by
  induction ds generalizing st with
  | nil => exact hx
  | cons d rest ih =>
    unfold batch_check_sites at ih ⊢
    simp only [List.foldl_cons]
    apply ih
    rw [checkOne_visited]
    split
    · exact hx
    · exact List.mem_append_left _ hx

theorem batch_visited_sub (env : Env) (now source : String) (ds : List String)
    (st : CState) (x : String)
    (hx : x ∈ (batch_check_sites env now source st ds).visited) :
    x ∈ st.visited ∨ x ∈ ds := by
  induction ds generalizing st with
  | nil => exact Or.inl hx
  | cons d rest ih =>
    unfold batch_check_sites at hx
    simp only [List.foldl_cons] at hx
    rcases ih _ hx with h | h
    · rw [checkOne_visited] at h
      split at h
      · exact Or.inl h
      · rcases List.mem_append.mp h with h | h
        · exact Or.inl h
        · simp at h
          subst h
          exact Or.inr (List.mem_cons_self _ _)
    · exact Or.inr (List.mem_cons_of_mem _ h)

theorem batch_visits (env : Env) (now source : String) (ds : List String)
    (st : CState) (d : String) (hd : d ∈ ds) :
    d ∈ (batch_check_sites env now source st ds).visited := by
  induction ds generalizing st with
  | nil => cases hd
  | cons a rest ih =>
    unfold batch_check_sites at ih ⊢
    simp only [List.foldl_cons]
    rcases List.mem_cons.mp hd with rfl | hd
    · apply batch_visited_mono
      rw [checkOne_visited]
      split
      · exact ‹_›
      · exact List.mem_append_right _ (List.mem_cons_self _ _)
    · exact ih _ hd

/-- Claim C5 (amended): during crawl link expansion happens exactly when
the fetched page has content and depth < 2; the candidates are the
extracted domains filtered to unvisited interesting ones and capped to the
first 20, and each is fetched and classified once through the batch
checker at a terminal level — candidates do not recursively enter crawl,
so no domain beyond the page's own filtered candidates is ever visited. -/
theorem crawl_expands_one_level (env : Env) (now : String) (st : CState)
    (url : String) (depth : Nat) :
    (∀ x, x ∈ (crawl env now st url depth).visited →
      x ∈ st.visited ∨ x = Crawler.normalize url ∨
      (depth < 2 ∧ ∃ h, (fetch (env.web url)).1 = some h ∧ h ≠ "" ∧
        is_parked env.strip h = false ∧
        x ∈ (link_candidates env (st.visited ++ [Crawler.normalize url]) h url).take 20)) ∧
    (∀ h, (fetch (env.web url)).1 = some h → h ≠ "" → is_parked env.strip h = false →
      depth < 2 → Crawler.normalize url ∉ st.visited → Crawler.normalize url ≠ "" →
      ∀ x ∈ (link_candidates env (st.visited ++ [Crawler.normalize url]) h url).take 20,
        x ∈ (crawl env now st url depth).visited) := by
  constructor
  · intro x hx
    unfold crawl at hx
    by_cases h0 : Crawler.normalize url = "" ∨ Crawler.normalize url ∈ st.visited
    · rw [if_pos h0] at hx
      exact Or.inl hx
    · rw [if_neg h0] at hx
      dsimp only at hx
      rcases hfr : (fetch (env.web url)).1 with _ | h
      · rw [hfr] at hx
        dsimp only at hx
        rcases List.mem_append.mp hx with h1 | h1
        · exact Or.inl h1
        · simp at h1
          exact Or.inr (Or.inl h1)
      · rw [hfr] at hx
        dsimp only at hx
        by_cases hcond : (h ≠ "" && (if h = "" then false else !is_parked env.strip h)
            && decide (depth < 2)) = true
        · rw [if_pos hcond] at hx
          have hparts : h ≠ "" ∧ is_parked env.strip h = false ∧ depth < 2 := by
            simp only [Bool.and_eq_true, decide_eq_true_eq, ne_eq,
              Bool.not_eq_true'] at hcond
            obtain ⟨⟨hh, hc⟩, hd⟩ := hcond
            rw [if_neg (by simpa using hh)] at hc
            simp only [Bool.not_eq_true'] at hc
            exact ⟨by simpa using hh, hc, hd⟩
          by_cases hnd : link_candidates env (st.visited ++ [Crawler.normalize url]) h url ≠ []
          · rw [if_pos hnd] at hx
            rcases batch_visited_sub _ _ _ _ _ _ hx with h1 | h1
            · rcases List.mem_append.mp h1 with h2 | h2
              · exact Or.inl h2
              · simp at h2
                exact Or.inr (Or.inl h2)
            · exact Or.inr (Or.inr ⟨hparts.2.2, h, rfl, hparts.1, hparts.2.1, h1⟩)
          · rw [if_neg hnd] at hx
            rcases List.mem_append.mp hx with h1 | h1
            · exact Or.inl h1
            · simp at h1
              exact Or.inr (Or.inl h1)
        · rw [if_neg hcond] at hx
          rcases List.mem_append.mp hx with h1 | h1
          · exact Or.inl h1
          · simp at h1
            exact Or.inr (Or.inl h1)
  · intro h hfr hne hpark hdepth hnv hne2 x hx
    unfold crawl
    rw [if_neg (by push_neg; exact ⟨hne2, hnv⟩)]
    dsimp only
    rw [hfr]
    dsimp only
    have hcond : (h ≠ "" && (if h = "" then false else !is_parked env.strip h)
        && decide (depth < 2)) = true := by
      rw [if_neg (by simpa using hne)]
      simp [hne, hpark, hdepth]
    rw [if_pos hcond]
    by_cases hnd : link_candidates env (st.visited ++ [Crawler.normalize url]) h url ≠ []
    · rw [if_pos hnd]
      exact batch_visits _ _ _ _ _ _ hx
    · push_neg at hnd
      rw [hnd] at hx
      simp at hx

set_option maxRecDepth 40000 in
theorem crawl_no_recursion_cex :
    "moltc.com" ∈ (spec_crawl cexEnv "t0" 5 cexState "https://a.com" 0).visited ∧
    "moltc.com" ∉ (crawl cexEnv "t0" cexState "https://a.com" 0).visited ∧
    "moltb.com" ∈ (crawl cexEnv "t0" cexState "https://a.com" 0).visited ∧
    cexEnv.extract cexHtml "https://moltb.com" = ["moltc.com"] ∧
    is_interesting "moltc.com" = true ∧
    is_parked cexEnv.strip cexHtml = false := by
  refine ⟨by decide, by decide, by decide, by decide, by decide, by decide⟩

set_option maxRecDepth 40000 in
theorem crawl_expands_one_level_witness :
    "moltb.com" ∈ cexState.visited ∨
    "moltb.com" = Crawler.normalize "https://a.com" ∨
    (0 < 2 ∧ ∃ h, (fetch (cexEnv.web "https://a.com")).1 = some h ∧ h ≠ "" ∧
      is_parked cexEnv.strip h = false ∧
      "moltb.com" ∈ (link_candidates cexEnv
        (cexState.visited ++ [Crawler.normalize "https://a.com"]) h "https://a.com").take 20) :=
  (crawl_expands_one_level cexEnv "t0" cexState "https://a.com" 0).1 "moltb.com" (by decide)

theorem toNat_ofNat_valid (n : Nat) (hv : n.isValidChar) : (Char.ofNat n).toNat = n := by
  rw [Char.ofNat, dif_pos hv]
  rfl

theorem toLower_idem (c : Char) : Char.toLower (Char.toLower c) = Char.toLower c := by
  unfold Char.toLower
  by_cases h : c.toNat ≥ 65 ∧ c.toNat ≤ 90
  · simp only [if_pos h]
    have hv : (c.toNat + 32).isValidChar := Or.inl (by omega)
    rw [toNat_ofNat_valid _ hv]
    have hn : ¬(c.toNat + 32 ≥ 65 ∧ c.toNat + 32 ≤ 90) := by omega
    simp only [if_neg hn]
  · simp only [if_neg h]

theorem toLower_toNat_cases (c : Char) :
    Char.toLower c = c ∨
    (97 ≤ (Char.toLower c).toNat ∧ (Char.toLower c).toNat ≤ 122) := by
  unfold Char.toLower
  by_cases h : c.toNat ≥ 65 ∧ c.toNat ≤ 90
  · simp only [if_pos h]
    refine Or.inr ?_
    have hv : (c.toNat + 32).isValidChar := Or.inl (by omega)
    rw [toNat_ofNat_valid _ hv]
    omega
  · rw [if_neg h]
    exact Or.inl rfl

theorem netlocChar_toLower (c : Char) (h : netlocChar c = true) :
    netlocChar (Char.toLower c) = true := by
  rcases toLower_toNat_cases c with heq | ⟨h1, h2⟩
  · rw [heq]; exact h
  · unfold netlocChar
    simp only [Bool.not_eq_true', Bool.or_eq_false_iff, decide_eq_false_iff_not]
    refine ⟨⟨?_, ?_⟩, ?_⟩ <;> intro he <;>
      (have hnat := congrArg Char.toNat he; simp at hnat; omega)

theorem mem_takeWhile_pred (p : Char → Bool) (l : List Char) (c : Char)
    (h : c ∈ l.takeWhile p) : p c = true := by
  induction l with
  | nil => simp [List.takeWhile] at h
  | cons a rest ih =>
    rw [List.takeWhile] at h
    by_cases hp : p a = true
    · rw [hp] at h
      simp only [List.mem_cons] at h
      rcases h with rfl | h
      · exact hp
      · exact ih h
    · rw [Bool.not_eq_true] at hp
      rw [hp] at h
      cases h

theorem takeWhile_eq_self_of (p : Char → Bool) (l : List Char)
    (h : ∀ c ∈ l, p c = true) : l.takeWhile p = l := by
  induction l with
  | nil => rfl
  | cons a rest ih =>
    rw [List.takeWhile, h a (List.mem_cons_self _ _)]
    rw [ih (fun c hc => h c (List.mem_cons_of_mem _ hc))]

theorem mem_pyNetloc (l : List Char) (c : Char) (h : c ∈ pyNetloc l) :
    netlocChar c = true := by
  unfold pyNetloc at h
  by_cases hp : isPrefixB ("//".toList) (schemeRest l) = true
  · rw [if_pos hp] at h
    exact mem_takeWhile_pred _ _ _ h
  · rw [if_neg hp] at h
    cases h

theorem isPrefixB_mem_sub (p l : List Char) (h : isPrefixB p l = true) :
    ∀ c ∈ p, c ∈ l := by
  induction p generalizing l with
  | nil => intro c hc; cases hc
  | cons a ps ih =>
    cases l with
    | nil => simp [isPrefixB] at h
    | cons b ls =>
      simp only [isPrefixB, Bool.and_eq_true, decide_eq_true_eq] at h
      obtain ⟨rfl, h2⟩ := h
      intro c hc
      rcases List.mem_cons.mp hc with rfl | hc
      · exact List.mem_cons_self _ _
      · exact List.mem_cons_of_mem _ (ih _ h2 c hc)

theorem isInfixB_mem_sub (p l : List Char) (h : isInfixB p l = true) :
    ∀ c ∈ p, c ∈ l := by
  induction l with
  | nil =>
    unfold isInfixB at h
    cases p with
    | nil => intro c hc; cases hc
    | cons a ps => simp [isPrefixB] at h
  | cons b ls ih =>
    unfold isInfixB at h
    rcases Bool.or_eq_true_iff.mp h with h | h
    · exact fun c hc => isPrefixB_mem_sub _ _ h c hc
    · exact fun c hc => List.mem_cons_of_mem _ (ih h c hc)

theorem mapIdOn (l : List Char) (f : Char → Char) (h : ∀ c ∈ l, f c = c) :
    l.map f = l := by
  induction l with
  | nil => rfl
  | cons a rest ih =>
    simp only [List.map_cons, h a (List.mem_cons_self _ _)]
    rw [ih (fun c hc => h c (List.mem_cons_of_mem _ hc))]

theorem strMk_toList (s : String) : String.mk s.toList = s := by
  cases s
  rfl

theorem pyNetloc_https (ys : List Char) :
    pyNetloc ("https://".toList ++ ys) = ys.takeWhile netlocChar := rfl

theorem normalize_chars (url : String) :
    ∀ c ∈ (Crawler.normalize url).toList, netlocChar c = true ∧ Char.toLower c = c := by
  intro c hc
  have hmem : c ∈ (pyNetloc (if containsSub url "://" then url
      else "https://" ++ url).toList).map Char.toLower := by
    unfold Crawler.normalize at hc
    dsimp only at hc
    by_cases hw : isPrefixB ("www.".toList)
        ((pyNetloc (if containsSub url "://" then url
          else "https://" ++ url).toList).map Char.toLower) = true
    · rw [if_pos hw] at hc
      exact List.mem_of_mem_drop hc
    · rw [if_neg hw] at hc
      exact hc
  obtain ⟨c₀, hc₀, rfl⟩ := List.mem_map.mp hmem
  exact ⟨netlocChar_toLower _ (mem_pyNetloc _ _ hc₀), toLower_idem _⟩

theorem normalize_eval (ys : List Char)
    (hchars : ∀ c ∈ ys, netlocChar c = true ∧ Char.toLower c = c)
    (hw : isPrefixB ("www.".toList) ys = false) :
    Crawler.normalize (String.mk ys) = String.mk ys := by
  have hnoslash : ∀ c ∈ ys, ¬ c = '/' := by
    intro c hc heq
    have hn := (hchars c hc).1
    subst heq
    simp [netlocChar] at hn
  have hcontains : containsSub (String.mk ys) "://" = false := by
    by_contra hcon
    rw [Bool.not_eq_false] at hcon
    have hsub := isInfixB_mem_sub ("://".toList) ys hcon
    exact hnoslash '/' (hsub '/' (by decide)) rfl
  unfold Crawler.normalize
  rw [if_neg (by simp [hcontains])]
  dsimp only
  have hu : ("https://" ++ String.mk ys).toList = "https://".toList ++ ys := rfl
  rw [hu, pyNetloc_https,
    takeWhile_eq_self_of netlocChar ys (fun c hc => (hchars c hc).1),
    mapIdOn ys Char.toLower (fun c hc => (hchars c hc).2)]
  have hw2 : isPrefixB (['w', 'w', 'w', '.']) ys = false := hw
  rw [if_neg (by simp [hw2])]

theorem normalize_idem_of_not_www (url : String)
    (h : isPrefixB ("www.".toList) (Crawler.normalize url).toList = false) :
    Crawler.normalize (Crawler.normalize url) = Crawler.normalize url := by
  have he := normalize_eval (Crawler.normalize url).toList (normalize_chars url) h
  rwa [strMk_toList] at he

/-- Claim C7 (amended): normalize strips the URL scheme, lowercases the
netloc and removes one leading "www.", and it is idempotent on every
input whose normalization does not itself start with "www." (stripping a
single "www." can expose another one: see the counterexample). -/
theorem normalize_idem_amended :
    (∀ url, isPrefixB ("www.".toList) (Crawler.normalize url).toList = false →
      Crawler.normalize (Crawler.normalize url) = Crawler.normalize url) ∧
    Crawler.normalize "HTTP://WWW.Example.COM/path" = "example.com" :=
  ⟨normalize_idem_of_not_www, by decide⟩

theorem normalize_idem_amended_witness :
    Crawler.normalize (Crawler.normalize "https://Foo.com") =
      Crawler.normalize "https://Foo.com" :=
  normalize_idem_amended.1 "https://Foo.com" (by decide)

theorem normalize_not_idem_cex :
    Crawler.normalize "www.www.foo" = "www.foo" ∧
    Crawler.normalize (Crawler.normalize "www.www.foo") = "foo" ∧
    Crawler.normalize (Crawler.normalize "www.www.foo") ≠
      Crawler.normalize "www.www.foo" :=
  ⟨by decide, by decide, by decide⟩
